import Mathlib

/-!
Shallow embedding of the bus-mapping `CircuitInputBuilder` core of the
zkevm-circuits repository (src/bus-mapping/src/circuit_input_builder.rs) and
of `byte_to_bits_le` (src/aggregator/src/aggregation/rlc/gates.rs).

Conventions of the embedding:
* machine integers (`usize`, `u64`, `u8`) are modelled as `Nat`; all the
  counter arithmetic performed by the modelled code (`rwc - 1`,
  `total_rws + 2`, `max_rws - total_rws`) stays far below `2^64` on every
  input the theorems quantify over, and truncated `Nat` subtraction agrees
  with `usize` subtraction at every subtraction site reached by the model
  (the counter is incremented before `- 1` is taken, and
  `max_rws - total_rws` is only computed under `total_rws + 1 <= max_rws`);
* fallible Rust code (functions returning `Result`, plus the two panicking
  sites: the `expect("call_id not found in call_map")` in
  `set_value_ops_call_context_rwc_eor` and slice indexing) is modelled with
  `Except BuilderError`;
* the external collaborators that the orchestrator drives but whose code
  lives outside the analysed sources (`Transaction::new`, the opcode
  generators `gen_begin_tx_ops` / `gen_associated_ops` / `gen_end_tx_ops`
  together with `TransactionContext::new` and the `StateDB` effects of one
  transaction) are parameters bundled in the `Externals` structure, exactly
  as the specification treats them (sections 4.4 and 1 "external
  collaborators, interfaces only");
* `log::warn!` / `log::error!` calls are modelled as appending a `LogMsg`
  to a log list carried next to the core state; logging has no other
  effect, matching the source.
-/

/-- Error values of the modelled code.  `rwsNotEnough` is
`Error::InternalError("rws not enough")` returned by `set_end_block`;
`callIdNotFound` is the `expect("call_id not found in call_map")` panic in
`set_value_ops_call_context_rwc_eor`; `indexOutOfBounds` is any slice / Vec
indexing panic (`txs[tx_idx]`, `calls()[call_idx]`, `tx.calls[0]`,
`geth_traces[tx_index]`); `incompleteInput` is
`Error::EthTypeError(eth_types::Error::IncompleteBlock)` raised by `new_tx`
on a missing `transaction_index`; `external` stands for any error value
produced by an external collaborator. -/
inductive BuilderError where
  | rwsNotEnough
  | callIdNotFound
  | indexOutOfBounds
  | incompleteInput
  | external (code : Nat)
deriving DecidableEq

/-- Log messages emitted by the modelled code; payloads are abstracted away
since logging has no semantic effect in the source.  `skipTxWarn` is the
`log::warn!("skip tx outside MAX_TX limit ...")` in `handle_block_inner`;
`l1FeeMismatch` is the `log::error!("Mismatch tx_l1_fee ...")` in
`handle_tx`. -/
inductive LogMsg where
  | skipTxWarn
  | l1FeeMismatch
deriving DecidableEq

/-- The `CallContextField` enum restricted to the two variants the modelled
code inspects or produces (`RwCounterEndOfReversion` in
`set_value_ops_call_context_rwc_eor`, `TxId` in `set_end_block`); all the
remaining variants of the source enum are collapsed into `other`, which is
enough because the modelled code only ever tests
`matches!(op.field, CallContextField::RwCounterEndOfReversion)`. -/
inductive CallContextField where
  | RwCounterEndOfReversion
  | TxId
  | other (tag : Nat)
deriving DecidableEq

/-- One operation of the `call_context` sub-log of the operation container:
`Operation<CallContextOp>` with its rw counter, the op's `call_id`, `field`
and `value` (values stored here are rw counters, so `Nat` suffices for the
`Word` of the source). -/
structure CallContextOp where
  rwc : Nat
  call_id : Nat
  field : CallContextField
  value : Nat
deriving DecidableEq

/-- One operation of the `storage` sub-log, as produced by the
`StorageOp::new(MESSAGE_QUEUE, WITHDRAW_TRIE_ROOT_SLOT, ...)` read in
`set_end_block` (the address and key are the fixed message-queue constants
and are omitted). -/
structure StorageOp where
  rwc : Nat
  value : Nat
  value_prev : Nat
  tx_id : Nat
  committed_value : Nat
deriving DecidableEq

/-- One operation of the `start` sub-log: the source `StartOp` struct is
empty, the counter lives in the `Operation` wrapper. -/
structure StartOp where
  rwc : Nat
deriving DecidableEq

/-- The sub-logs of the `OperationContainer` touched by the modelled code.
The source container has further sub-logs (stack, memory, ...); they are
only written through the external opcode generators, which the `Externals`
parameter models wholesale, so they are not represented individually. -/
structure OperationContainer where
  call_context : List CallContextOp
  storage : List StorageOp
  start : List StartOp
deriving DecidableEq

/-- A `Call` of a built transaction, restricted to the fields read by the
modelled code: `call_id` (read by `set_end_block` through
`txs.last().map(|tx| tx.calls[0].call_id)`) and
`rw_counter_end_of_reversion` (read by
`set_value_ops_call_context_rwc_eor`). -/
structure Call where
  call_id : Nat
  rw_counter_end_of_reversion : Nat
deriving DecidableEq

/-- An `eth_types::Transaction` restricted to the fields the modelled
orchestrator code reads: `transaction_index` (an `Option`, checked by
`new_tx` and overwritten by `handle_block_inner`); every other field is
abstracted into `data`, which external collaborators may interpret freely. -/
structure EthTx where
  transaction_index : Option Nat
  data : Nat
deriving DecidableEq

/-- Modelled from the spec: the built `circuit_input_builder::Transaction`
(`Transaction::new` lives in transaction.rs, outside the analysed sources).
Per spec section 3 it owns its ordered `calls`; `l1_fee` is the value of the
`tx.l1_fee()` recomputation used by the sanity check in `handle_tx`; `eth`
keeps the `eth_types` transaction the builder passed to `Transaction::new`
(with its already-overwritten `transaction_index`). -/
structure Transaction where
  call_id : Nat
  eth : EthTx
  calls : List Call
  l1_fee : Nat
deriving DecidableEq

/-- A `GethExecTrace` restricted to the fields read by the modelled
orchestrator code: `failed` (negated into `is_success` for `new_tx`) and
the declared `l1_fee` compared in `handle_tx`; the step list consumed by the
external generators is abstracted into `steps_data`. -/
structure GethTrace where
  failed : Bool
  l1_fee : Nat
  steps_data : Nat
deriving DecidableEq

/-- The mutable state of one `CircuitInputBuilder` build, flattened: the
block context's rw counter `rwc` (the next counter value to assign; it
starts at 1) and `call_map`, the block's transactions, operation container,
capacity parameters `max_rws` / `max_txs`, header bookkeeping, and the two
storage values `set_end_block` reads from the `StateDB`
(`sdb.get_storage` / `sdb.get_committed_storage` of the withdraw-trie-root
slot).  The `call_map` HashMap is modelled as an association list where
insertion prepends and lookup takes the first match. -/
structure CoreState where
  rwc : Nat
  call_map : List (Nat × Nat × Nat)
  txs : List Transaction
  container : OperationContainer
  max_rws : Nat
  max_txs : Nat
  headers : List Nat
  withdraw_root : Nat
  withdraw_root_before : Nat
deriving DecidableEq

/-- Core state plus the accumulated log messages. -/
structure BuilderState where
  core : CoreState
  logs : List LogMsg
deriving DecidableEq

/-- Modelled from the spec: the external collaborators of the orchestrator
(spec sections 2, 4.4), whose code is outside the analysed sources.
`txNew` is `Transaction::new(call_id, sdb, code_db, eth_tx, is_success)`;
`runTx` collapses everything `handle_tx` does between the L1-fee check and
`block.txs.push(tx)`: `TransactionContext::new`, the access-list insertion
into the `StateDB`, `gen_begin_tx_ops`, the per-step `gen_associated_ops`
loop, `gen_end_tx_ops` and `sdb.commit_tx()`; it receives the core state,
the freshly built transaction, the trace and the `is_last_tx` flag and
returns the updated core state and transaction. -/
structure Externals where
  txNew : Nat → EthTx → Bool → Except BuilderError Transaction
  runTx : CoreState → Transaction → GethTrace → Bool → Except BuilderError (CoreState × Transaction)

/-- Lookup in the modelled `call_map` association list (first match). -/
def lookup_call_map : List (Nat × Nat × Nat) → Nat → Option (Nat × Nat)
  | [], _ => none
  | (k, ti, ci) :: rest, key => if k = key then some (ti, ci) else lookup_call_map rest key

/-- Patching of a single call-context operation, as done by one iteration of
the loop in `set_value_ops_call_context_rwc_eor`: operations whose field is
`RwCounterEndOfReversion` get their value replaced by
`txs[tx_idx].calls()[call_idx].rw_counter_end_of_reversion` where
`(tx_idx, call_idx) = call_map[op.call_id]`; a missing `call_map` entry is
the `expect` panic, an out-of-range index the corresponding indexing panic;
operations with any other field are returned untouched. -/
def set_value_op (call_map : List (Nat × Nat × Nat)) (txs : List Transaction)
    (op : CallContextOp) : Except BuilderError CallContextOp :=
  if op.field = CallContextField.RwCounterEndOfReversion then
    match lookup_call_map call_map op.call_id with
    | none => .error .callIdNotFound
    | some (tx_idx, call_idx) =>
      match txs.get? tx_idx with
      | none => .error .indexOutOfBounds
      | some tx =>
        match tx.calls.get? call_idx with
        | none => .error .indexOutOfBounds
        | some c => .ok { op with value := c.rw_counter_end_of_reversion }
  else .ok op

/-- `CircuitInputBuilder::set_value_ops_call_context_rwc_eor`: iterate over
the `call_context` sub-log in order and patch every
`RwCounterEndOfReversion` placeholder; the first panic aborts the whole
pass. -/
def set_value_ops_call_context_rwc_eor (call_map : List (Nat × Nat × Nat))
    (txs : List Transaction) : List CallContextOp → Except BuilderError (List CallContextOp)
  | [] => .ok []
  | op :: rest =>
    match set_value_op call_map txs op with
    | .error e => .error e
    | .ok op2 =>
      match set_value_ops_call_context_rwc_eor call_map txs rest with
      | .error e => .error e
      | .ok rest2 => .ok (op2 :: rest2)

/-- Modelled from the spec: `CircuitInputStateRef::call_context_read`
(input_state_ref.rs, outside the analysed sources).  Per spec section 4.1
an insertion assigns the next counter value and increments the global
counter; the operation is appended to the `call_context` sub-log. -/
def pushCallContextRead (s : CoreState) (call_id : Nat) (field : CallContextField)
    (value : Nat) : CoreState :=
  { s with
    rwc := s.rwc + 1
    container := { s.container with
      call_context := s.container.call_context ++ [{ rwc := s.rwc, call_id := call_id, field := field, value := value }] } }

/-- Modelled from the spec: `CircuitInputStateRef::push_op` of the
withdraw-trie-root `StorageOp` read in `set_end_block` (push_op lives in
input_state_ref.rs, outside the analysed sources; the source comment at the
call site states that it increases the total rwc by 1, matching spec
section 4.1). -/
def pushStorageRead (s : CoreState) : CoreState :=
  { s with
    rwc := s.rwc + 1
    container := { s.container with
      storage := s.container.storage ++ [{ rwc := s.rwc, value := s.withdraw_root, value_prev := s.withdraw_root, tx_id := s.txs.length, committed_value := s.withdraw_root_before }] } }

/-- The reads `set_end_block` performs before the capacity check: the
`TxId` call-context read for the last transaction's first call (skipped when
the block has no transactions; `tx.calls[0]` panics when that call list is
empty) followed by the withdraw-trie-root storage read. -/
def end_block_reads (s : CoreState) : Except BuilderError CoreState :=
  match s.txs.getLast? with
  | none => .ok (pushStorageRead s)
  | some tx =>
    match tx.calls.head? with
    | none => .error .indexOutOfBounds
    | some c => .ok (pushStorageRead (pushCallContextRead s c.call_id CallContextField.TxId s.txs.length))

/-- `CircuitInputBuilder::set_end_block`: perform the end-of-block reads,
compute `total_rws = rwc - 1`, replace a zero `max_rws` by
`total_rws + 2`, fail with `Error::InternalError("rws not enough")` when
`total_rws + 1 > max_rws`, and otherwise append the two `Start` padding
operations at counters `1` and `max_rws - total_rws`. -/
def set_end_block (s : CoreState) : Except BuilderError CoreState :=
  match end_block_reads s with
  | .error e => .error e
  | .ok s2 =>
    let total_rws := s2.rwc - 1
    let max_rws := if s2.max_rws = 0 then total_rws + 2 else s2.max_rws
    if total_rws + 1 > max_rws then .error .rwsNotEnough
    else .ok { s2 with container := { s2.container with
      start := s2.container.start ++ [{ rwc := 1 }, { rwc := max_rws - total_rws }] } }

/-- `CircuitInputBuilder::new_tx`: take the next counter value as
`call_id`, fail with the incomplete-input error when the eth transaction
has no `transaction_index`, otherwise insert
`call_id -> (transaction_index, 0)` into the `call_map` and delegate to the
external `Transaction::new`. -/
def new_tx (ext : Externals) (s : CoreState) (eth_tx : EthTx) (is_success : Bool) :
    Except BuilderError (CoreState × Transaction) :=
  match eth_tx.transaction_index with
  | none => .error .incompleteInput
  | some idx =>
    match ext.txNew s.rwc eth_tx is_success with
    | .error e => .error e
    | .ok t => .ok ({ s with call_map := (s.rwc, idx, 0) :: s.call_map }, t)

/-- `CircuitInputBuilder::handle_tx`: build the transaction via `new_tx`,
compare the recomputed L1 fee `tx.l1_fee()` against the trace's declared
`l1_fee` (a mismatch is only logged), run the external replay of the
transaction, and push the resulting transaction onto the block. -/
def handle_tx (ext : Externals) (b : BuilderState) (eth_tx : EthTx) (trace : GethTrace)
    (is_last_tx : Bool) : Except BuilderError BuilderState :=
  match new_tx ext b.core eth_tx (!trace.failed) with
  | .error e => .error e
  | .ok (core, tx) =>
    let logs := if tx.l1_fee ≠ trace.l1_fee then b.logs ++ [LogMsg.l1FeeMismatch] else b.logs
    match ext.runTx core tx trace is_last_tx with
    | .error e => .error e
    | .ok (core2, tx2) => .ok { core := { core2 with txs := core2.txs ++ [tx2] }, logs := logs }

/-- The transaction loop of `handle_block_inner`: enumerate the block's
transactions; when the batch already holds `max_txs` transactions the
transaction is skipped with a warning; otherwise the matching trace is
fetched (`geth_traces[tx_index]`, an indexing panic when absent), the
transaction's `transaction_index` is overwritten with its batch position
`block.txs.len()`, and `handle_tx` is invoked with
`is_last_tx = check_last_tx && tx_index + 1 == transactions.len()`. -/
def txLoop (ext : Externals) (traces : List GethTrace) (total : Nat) (check_last_tx : Bool) :
    BuilderState → Nat → List EthTx → Except BuilderError BuilderState
  | b, _, [] => .ok b
  | b, tx_index, etx :: rest =>
    if b.core.max_txs ≤ b.core.txs.length then
      txLoop ext traces total check_last_tx
        { core := b.core, logs := b.logs ++ [LogMsg.skipTxWarn] } (tx_index + 1) rest
    else
      match traces.get? tx_index with
      | none => .error .indexOutOfBounds
      | some trace =>
        match handle_tx ext b { etx with transaction_index := some b.core.txs.length } trace
            (check_last_tx && (tx_index + 1 == total)) with
        | .error e => .error e
        | .ok b2 => txLoop ext traces total check_last_tx b2 (tx_index + 1) rest

/-- The finalize phase run by `handle_block_inner` when
`handle_rwc_reversion` is set: `set_value_ops_call_context_rwc_eor`
followed by `set_end_block`. -/
def finalizeBlock (b : BuilderState) : Except BuilderError BuilderState :=
  match set_value_ops_call_context_rwc_eor b.core.call_map b.core.txs b.core.container.call_context with
  | .error e => .error e
  | .ok cc =>
    match set_end_block { b.core with container := { b.core.container with call_context := cc } } with
    | .error e => .error e
    | .ok core => .ok { core := core, logs := b.logs }

/-- `CircuitInputBuilder::handle_block_inner`: run the transaction loop and,
when `handle_rwc_reversion` is set, the finalize phase. -/
def handle_block_inner (ext : Externals) (b : BuilderState) (etxs : List EthTx)
    (traces : List GethTrace) (handle_rwc_reversion check_last_tx : Bool) :
    Except BuilderError BuilderState :=
  match txLoop ext traces etxs.length check_last_tx b 0 etxs with
  | .error e => .error e
  | .ok b2 => if handle_rwc_reversion then finalizeBlock b2 else .ok b2

/-- `CircuitInputBuilder::handle_block` =
`handle_block_inner(eth_block, geth_traces, true, true)`. -/
def handle_block (ext : Externals) (b : BuilderState) (etxs : List EthTx)
    (traces : List GethTrace) : Except BuilderError BuilderState :=
  handle_block_inner ext b etxs traces true true

/-- One eth block of a multi-block batch: its number together with its
transactions and traces.  Modelled from the spec: `BlockHead::new`
(block.rs, outside the analysed sources) is folded to recording the block
number in the header map; its own failure modes decide no claim. -/
structure EthBlockT where
  number : Nat
  txs : List EthTx
  traces : List GethTrace
deriving DecidableEq

/-- Record a block header in the builder's header map
(`builder.block.headers.insert(header.number.as_u64(), header)`). -/
def withHeader (b : BuilderState) (number : Nat) : BuilderState :=
  { b with core := { b.core with headers := b.core.headers ++ [number] } }

/-- The enumerated loop of `BuilderClient::gen_inputs_from_state_multi`:
for each block, `is_last = idx == blocks.len() - 1`, the header is inserted
and `handle_block_inner(block, traces, is_last, is_last)` is run on the one
shared builder state. -/
def gen_multi_go (ext : Externals) :
    BuilderState → Nat → Nat → List EthBlockT → Except BuilderError BuilderState
  | b, _, _, [] => .ok b
  | b, idx, n, blk :: rest =>
    let is_last : Bool := idx = n - 1
    match handle_block_inner ext (withHeader b blk.number) blk.txs blk.traces is_last is_last with
    | .error e => .error e
    | .ok b2 => gen_multi_go ext b2 (idx + 1) n rest

/-- `BuilderClient::gen_inputs_from_state_multi`, starting from the given
builder state. -/
def gen_inputs_from_state_multi (ext : Externals) (b : BuilderState)
    (blocks : List EthBlockT) : Except BuilderError BuilderState :=
  gen_multi_go ext b 0 blocks.length blocks

/-- Replay of one non-final block of a batch, following the spec's words
for claim C6: header insertion plus `handle_block_inner` with both flags
false, i.e. without reversion-marker resolution or padding. -/
def process_block_not_last (ext : Externals) (b : BuilderState) (blk : EthBlockT) :
    Except BuilderError BuilderState :=
  handle_block_inner ext (withHeader b blk.number) blk.txs blk.traces false false

/-- Replay of a list of non-final blocks threading one builder state. -/
def process_blocks_not_last (ext : Externals) :
    BuilderState → List EthBlockT → Except BuilderError BuilderState
  | b, [] => .ok b
  | b, blk :: rest =>
    match process_block_not_last ext b blk with
    | .error e => .error e
    | .ok b2 => process_blocks_not_last ext b2 rest

/-- Replay of the final block of a batch: header insertion plus
`handle_block_inner` with both flags true, triggering reversion-marker
resolution and padding. -/
def process_block_last (ext : Externals) (b : BuilderState) (blk : EthBlockT) :
    Except BuilderError BuilderState :=
  handle_block_inner ext (withHeader b blk.number) blk.txs blk.traces true true

/-- Variant of `handle_tx` with the L1-fee sanity check removed, following
the spec's words for claim C8 ("handle_tx proceeds identically whether or
not the two values agree"); compared against `handle_tx` in the claimed
theorem. -/
def handle_tx_no_fee_check (ext : Externals) (b : BuilderState) (eth_tx : EthTx)
    (trace : GethTrace) (is_last_tx : Bool) : Except BuilderError BuilderState :=
  match new_tx ext b.core eth_tx (!trace.failed) with
  | .error e => .error e
  | .ok (core, tx) =>
    match ext.runTx core tx trace is_last_tx with
    | .error e => .error e
    | .ok (core2, tx2) => .ok { core := { core2 with txs := core2.txs ++ [tx2] }, logs := b.logs }

/-- A fresh builder core state as produced by
`CircuitInputBuilder::new_from_headers` with the given capacity parameters:
the rw counter starts at 1 (spec section 3: "Sequence counter — ...,
starting at 1"; `BlockContext::new` lives in block.rs, outside the analysed
sources), everything else empty. -/
def initCore (max_rws max_txs : Nat) : CoreState :=
  { rwc := 1
    call_map := []
    txs := []
    container := { call_context := [], storage := [], start := [] }
    max_rws := max_rws
    max_txs := max_txs
    headers := []
    withdraw_root := 0
    withdraw_root_before := 0 }

/-- A trivial instantiation of the external collaborators, used by concrete
witnesses: `Transaction::new` builds a transaction with no calls and L1 fee
0, and the replay of a transaction is a no-op. -/
def trivialExt : Externals :=
  { txNew := fun call_id e _ => .ok { call_id := call_id, eth := e, calls := [], l1_fee := 0 }
    runTx := fun c t _ _ => .ok (c, t) }

/-- `byte_to_bits_le`'s loop (src/aggregator/src/aggregation/rlc/gates.rs):
`n` remaining iterations of pushing `t & 1` and shifting `t >>= 1`. -/
def byte_to_bits_le_aux : Nat → Nat → List Nat
  | 0, _ => []
  | n + 1, t => t % 2 :: byte_to_bits_le_aux n (t / 2)

/-- `byte_to_bits_le`: the 8 little-endian bits of a byte. -/
def byte_to_bits_le (byte : Nat) : List Nat :=
  byte_to_bits_le_aux 8 byte

/-- The end-of-block reads leave the capacity parameter untouched. -/
theorem end_block_reads_max_rws (s s2 : CoreState) (h : end_block_reads s = .ok s2) :
    s2.max_rws = s.max_rws := by
  unfold end_block_reads at h
  cases hlast : s.txs.getLast? with
  | none => simp only [hlast] at h; injection h with h2; rw [← h2]; rfl
  | some tx =>
    simp only [hlast] at h
    cases hhead : tx.calls.head? with
    | none => simp only [hhead] at h; exact Except.noConfusion h
    | some c => simp only [hhead] at h; injection h with h2; rw [← h2]; rfl

/-- Unfolding of `set_end_block` past its end-of-block reads. -/
theorem set_end_block_eq (s s2 : CoreState) (hpre : end_block_reads s = .ok s2) :
    set_end_block s =
      if s2.rwc - 1 + 1 > (if s2.max_rws = 0 then s2.rwc - 1 + 2 else s2.max_rws)
      then .error .rwsNotEnough
      else .ok { s2 with container := { s2.container with
        start := s2.container.start ++ [{ rwc := 1 },
          { rwc := (if s2.max_rws = 0 then s2.rwc - 1 + 2 else s2.max_rws) - (s2.rwc - 1) }] } } := by
  unfold set_end_block
  rw [hpre]

/-- Claim C1: for a block build with nonzero `max_rws` whose finalize
reaches the capacity check (i.e. the end-of-block reads, which advance the
counter, do not themselves panic and yield the state `s2` holding the
counter value at the check), `set_end_block` fails with the
capacity-exceeded error `Error::InternalError("rws not enough")` if and
only if `total_rws + 1 > max_rws` with `total_rws = s2.rwc - 1`; otherwise
it succeeds and appends the two `Start` padding operations; and the
capacity-exceeded error is distinct from the internal invariant violation
(`callIdNotFound`) raised during reversion resolution. -/
theorem set_end_block_capacity (s s2 : CoreState) (hmax : s.max_rws ≠ 0)
    (hpre : end_block_reads s = .ok s2) :
    (set_end_block s = .error BuilderError.rwsNotEnough ↔ s.max_rws < s2.rwc - 1 + 1) ∧
    (s2.rwc - 1 + 1 ≤ s.max_rws →
      set_end_block s = .ok { s2 with container := { s2.container with
        start := s2.container.start ++ [{ rwc := 1 },
          { rwc := s.max_rws - (s2.rwc - 1) }] } }) ∧
    BuilderError.rwsNotEnough ≠ BuilderError.callIdNotFound := by
  have hm : s2.max_rws = s.max_rws := end_block_reads_max_rws s s2 hpre
  rw [set_end_block_eq s s2 hpre, hm, if_neg hmax]
  refine ⟨?_, ?_, by decide⟩
  · by_cases h : s.max_rws < s2.rwc - 1 + 1
    · rw [if_pos h]
      simp [h]
    · rw [if_neg h]
      constructor
      · intro h2
        exact Except.noConfusion h2
      · intro h2
        exact absurd h2 h
  · intro hle
    rw [if_neg (by omega)]

/-- Witness for C1 at a concrete input: the empty block build with
`max_rws = 5`; the withdraw-root read advances the counter to 2, so
`total_rws = 1`, the check `1 + 1 <= 5` passes, and the two `Start` pads at
counters `1` and `5 - 1 = 4` are appended. -/
theorem set_end_block_capacity_witness :
    (initCore 5 1).max_rws ≠ 0 ∧
    end_block_reads (initCore 5 1) = .ok (pushStorageRead (initCore 5 1)) ∧
    ((set_end_block (initCore 5 1) = .error BuilderError.rwsNotEnough ↔
        (initCore 5 1).max_rws < (pushStorageRead (initCore 5 1)).rwc - 1 + 1) ∧
      ((pushStorageRead (initCore 5 1)).rwc - 1 + 1 ≤ (initCore 5 1).max_rws →
        set_end_block (initCore 5 1) = .ok { pushStorageRead (initCore 5 1) with
          container := { (pushStorageRead (initCore 5 1)).container with
            start := (pushStorageRead (initCore 5 1)).container.start ++ [{ rwc := 1 },
              { rwc := (initCore 5 1).max_rws - ((pushStorageRead (initCore 5 1)).rwc - 1) }] } }) ∧
      BuilderError.rwsNotEnough ≠ BuilderError.callIdNotFound) :=
  ⟨by decide, rfl,
    set_end_block_capacity (initCore 5 1) (pushStorageRead (initCore 5 1)) (by decide) rfl⟩

/-- Claim C4: at finalize, when `max_rws = 0` it is replaced by
`total_rws + 2` (dynamic sizing), so the capacity check can never fail:
whenever the end-of-block reads complete, `set_end_block` succeeds and
still appends exactly two `Start` padding operations, at counters `1` and
`(total_rws + 2) - total_rws = 2`. -/
theorem set_end_block_dynamic_sizing (s s2 : CoreState) (hmax : s.max_rws = 0)
    (hpre : end_block_reads s = .ok s2) :
    set_end_block s = .ok { s2 with container := { s2.container with
      start := s2.container.start ++ [{ rwc := 1 }, { rwc := 2 }] } } := by
  have hm : s2.max_rws = s.max_rws := end_block_reads_max_rws s s2 hpre
  have hmax2 : s2.max_rws = 0 := by rw [hm, hmax]
  rw [set_end_block_eq s s2 hpre, if_pos hmax2, if_neg (by omega)]
  have h2 : s2.rwc - 1 + 2 - (s2.rwc - 1) = 2 := by omega
  rw [h2]

/-- Witness for C4 at a concrete input: the empty block build with
`max_rws = 0` finalizes successfully with `Start` pads at counters 1
and 2. -/
theorem set_end_block_dynamic_sizing_witness :
    (initCore 0 3).max_rws = 0 ∧
    end_block_reads (initCore 0 3) = .ok (pushStorageRead (initCore 0 3)) ∧
    set_end_block (initCore 0 3) = .ok { pushStorageRead (initCore 0 3) with
      container := { (pushStorageRead (initCore 0 3)).container with
        start := (pushStorageRead (initCore 0 3)).container.start ++
          [{ rwc := 1 }, { rwc := 2 }] } } :=
  ⟨rfl, rfl, set_end_block_dynamic_sizing (initCore 0 3) (pushStorageRead (initCore 0 3)) rfl rfl⟩

/-- Characterization of a successful patch of one `RwCounterEndOfReversion`
operation. -/
theorem set_value_op_rwc_eor (call_map : List (Nat × Nat × Nat)) (txs : List Transaction)
    (op op2 : CallContextOp) (hf : op.field = CallContextField.RwCounterEndOfReversion)
    (h : set_value_op call_map txs op = .ok op2) :
    ∃ ti ci tx c, lookup_call_map call_map op.call_id = some (ti, ci) ∧
      txs.get? ti = some tx ∧ tx.calls.get? ci = some c ∧
      op2 = { op with value := c.rw_counter_end_of_reversion } := by
  unfold set_value_op at h
  rw [if_pos hf] at h
  cases hl : lookup_call_map call_map op.call_id with
  | none => simp only [hl] at h; exact Except.noConfusion h
  | some p =>
    obtain ⟨ti, ci⟩ := p
    simp only [hl] at h
    cases ht : txs.get? ti with
    | none => simp only [ht] at h; exact Except.noConfusion h
    | some tx =>
      simp only [ht] at h
      cases hc : tx.calls.get? ci with
      | none => simp only [hc] at h; exact Except.noConfusion h
      | some c =>
        simp only [hc] at h
        injection h with h2
        exact ⟨ti, ci, tx, c, rfl, ht, hc, h2.symm⟩

/-- Operations whose field is not `RwCounterEndOfReversion` are returned
untouched by the patching pass. -/
theorem set_value_op_other (call_map : List (Nat × Nat × Nat)) (txs : List Transaction)
    (op : CallContextOp) (hf : op.field ≠ CallContextField.RwCounterEndOfReversion) :
    set_value_op call_map txs op = .ok op := by
  unfold set_value_op
  rw [if_neg hf]

/-- The patching of one operation errors with `callIdNotFound` exactly when
the operation is a `RwCounterEndOfReversion` placeholder whose `call_id`
has no entry in the call map. -/
theorem set_value_op_call_id_not_found (call_map : List (Nat × Nat × Nat))
    (txs : List Transaction) (op : CallContextOp) :
    set_value_op call_map txs op = .error BuilderError.callIdNotFound ↔
      op.field = CallContextField.RwCounterEndOfReversion ∧
        lookup_call_map call_map op.call_id = none := by
  unfold set_value_op
  by_cases hf : op.field = CallContextField.RwCounterEndOfReversion
  · rw [if_pos hf]
    cases hl : lookup_call_map call_map op.call_id with
    | none => simp only [hl]; simp [hf]
    | some p =>
      obtain ⟨ti, ci⟩ := p
      simp only [hl]
      cases ht : txs.get? ti with
      | none => simp only [ht]; simp [hf, hl]
      | some tx =>
        simp only [ht]
        cases hc : tx.calls.get? ci with
        | none => simp only [hc]; simp [hf, hl]
        | some c => simp only [hc]; simp [hf, hl]
  · rw [if_neg hf]
    simp [hf]

/-- Claim C2: when the finalize-time patching pass
`set_value_ops_call_context_rwc_eor` completes, every operation of the
call-context sub-log whose field is `RwCounterEndOfReversion` has its value
set to `txs[tx_idx].calls()[call_idx].rw_counter_end_of_reversion` where
`(tx_idx, call_idx) = call_map[op.call_id]`, and every operation with any
other field is unchanged (same position, same contents, and the sub-log
keeps its length). -/
theorem set_value_ops_rwc_eor_patches (call_map : List (Nat × Nat × Nat))
    (txs : List Transaction) :
    ∀ ops ops2, set_value_ops_call_context_rwc_eor call_map txs ops = .ok ops2 →
      ops2.length = ops.length ∧
      ∀ i op, ops.get? i = some op →
        ∃ op2, ops2.get? i = some op2 ∧
          (op.field = CallContextField.RwCounterEndOfReversion →
            ∃ ti ci tx c, lookup_call_map call_map op.call_id = some (ti, ci) ∧
              txs.get? ti = some tx ∧ tx.calls.get? ci = some c ∧
              op2 = { op with value := c.rw_counter_end_of_reversion }) ∧
          (op.field ≠ CallContextField.RwCounterEndOfReversion → op2 = op) := by
  intro ops
  induction ops with
  | nil =>
    intro ops2 h
    unfold set_value_ops_call_context_rwc_eor at h
    injection h with h2
    rw [← h2]
    exact ⟨rfl, fun i op hop => Option.noConfusion hop⟩
  | cons op rest ih =>
    intro ops2 h
    unfold set_value_ops_call_context_rwc_eor at h
    cases h1 : set_value_op call_map txs op with
    | error e => simp only [h1] at h; exact Except.noConfusion h
    | ok op2 =>
      simp only [h1] at h
      cases h2 : set_value_ops_call_context_rwc_eor call_map txs rest with
      | error e => simp only [h2] at h; exact Except.noConfusion h
      | ok rest2 =>
        simp only [h2] at h
        injection h with h3
        rw [← h3]
        obtain ⟨hlen, hidx⟩ := ih rest2 h2
        refine ⟨by simp [hlen], ?_⟩
        intro i opi hopi
        cases i with
        | zero =>
          simp only [List.get?] at hopi
          injection hopi with h4
          rw [← h4]
          refine ⟨op2, by simp [List.get?], ?_, ?_⟩
          · intro hf
            exact set_value_op_rwc_eor call_map txs op op2 hf h1
          · intro hf
            have h5 := set_value_op_other call_map txs op hf
            rw [h5] at h1
            injection h1 with h6
            exact h6.symm
        | succ j =>
          simp only [List.get?] at hopi
          obtain ⟨op2j, hget, hprop⟩ := hidx j opi hopi
          exact ⟨op2j, by simpa [List.get?] using hget, hprop⟩

/-- Concrete call map for the C2 witness. -/
def c2map : List (Nat × Nat × Nat) := [(7, 0, 0)]

/-- Concrete transaction list for the C2 witness: one transaction whose
single call has `rw_counter_end_of_reversion = 42`. -/
def c2txs : List Transaction :=
  [{ call_id := 7, eth := { transaction_index := some 0, data := 0 },
     calls := [{ call_id := 7, rw_counter_end_of_reversion := 42 }], l1_fee := 0 }]

/-- Concrete call-context sub-log for the C2 witness: one
`RwCounterEndOfReversion` placeholder and one `TxId` operation. -/
def c2ops : List CallContextOp :=
  [{ rwc := 5, call_id := 7, field := CallContextField.RwCounterEndOfReversion, value := 0 },
   { rwc := 6, call_id := 9, field := CallContextField.TxId, value := 3 }]

/-- The C2 witness output: the placeholder patched to 42, the `TxId`
operation untouched. -/
def c2ops2 : List CallContextOp :=
  [{ rwc := 5, call_id := 7, field := CallContextField.RwCounterEndOfReversion, value := 42 },
   { rwc := 6, call_id := 9, field := CallContextField.TxId, value := 3 }]

/-- Witness for C2 at a concrete input. -/
theorem set_value_ops_rwc_eor_patches_witness :
    set_value_ops_call_context_rwc_eor c2map c2txs c2ops = .ok c2ops2 ∧
    (c2ops2.length = c2ops.length ∧
      ∀ i op, c2ops.get? i = some op →
        ∃ op2, c2ops2.get? i = some op2 ∧
          (op.field = CallContextField.RwCounterEndOfReversion →
            ∃ ti ci tx c, lookup_call_map c2map op.call_id = some (ti, ci) ∧
              c2txs.get? ti = some tx ∧ tx.calls.get? ci = some c ∧
              op2 = { op with value := c.rw_counter_end_of_reversion }) ∧
          (op.field ≠ CallContextField.RwCounterEndOfReversion → op2 = op)) :=
  ⟨rfl, set_value_ops_rwc_eor_patches c2map c2txs c2ops c2ops2 rfl⟩

/-- Claim C5: during finalize-time reversion resolution, if some
call-context operation with field `RwCounterEndOfReversion` carries a
`call_id` absent from the call map, the pass aborts (the `expect` panic,
fatal for the current build); and the pass aborts with the
`callIdNotFound` reason only in that case. -/
theorem set_value_ops_missing_call_id_aborts (call_map : List (Nat × Nat × Nat))
    (txs : List Transaction) : ∀ ops : List CallContextOp,
    ((∃ op ∈ ops, op.field = CallContextField.RwCounterEndOfReversion ∧
        lookup_call_map call_map op.call_id = none) →
      ∃ e, set_value_ops_call_context_rwc_eor call_map txs ops = .error e) ∧
    (set_value_ops_call_context_rwc_eor call_map txs ops = .error BuilderError.callIdNotFound →
      ∃ op ∈ ops, op.field = CallContextField.RwCounterEndOfReversion ∧
        lookup_call_map call_map op.call_id = none) := by
  intro ops
  induction ops with
  | nil =>
    constructor
    · rintro ⟨op, hmem, _⟩
      exact absurd hmem (List.not_mem_nil op)
    · intro h
      exact Except.noConfusion h
  | cons op rest ih =>
    constructor
    · rintro ⟨opw, hmem, hfw, hlw⟩
      unfold set_value_ops_call_context_rwc_eor
      cases h1 : set_value_op call_map txs op with
      | error e => exact ⟨e, rfl⟩
      | ok op2 =>
        rcases List.mem_cons.mp hmem with heq | hmem2
        · rw [← heq] at h1
          rw [(set_value_op_call_id_not_found call_map txs opw).mpr ⟨hfw, hlw⟩] at h1
          exact Except.noConfusion h1
        · obtain ⟨e, he⟩ := ih.1 ⟨opw, hmem2, hfw, hlw⟩
          rw [he]
          exact ⟨e, rfl⟩
    · intro h
      unfold set_value_ops_call_context_rwc_eor at h
      cases h1 : set_value_op call_map txs op with
      | error e =>
        rw [h1] at h
        injection h with h2
        rw [h2] at h1
        obtain ⟨hf, hl⟩ := (set_value_op_call_id_not_found call_map txs op).mp h1
        exact ⟨op, List.mem_cons_self op rest, hf, hl⟩
      | ok op2 =>
        rw [h1] at h
        cases h2 : set_value_ops_call_context_rwc_eor call_map txs rest with
        | error e =>
          rw [h2] at h
          injection h with h3
          rw [h3] at h2
          obtain ⟨opw, hmem, hfw, hlw⟩ := ih.2 h2
          exact ⟨opw, List.mem_cons_of_mem op hmem, hfw, hlw⟩
        | ok rest2 =>
          rw [h2] at h
          exact Except.noConfusion h

/-- Concrete call-context sub-log for the C5 witness: a single
`RwCounterEndOfReversion` placeholder whose `call_id` 3 is missing from the
empty call map. -/
def c5ops : List CallContextOp :=
  [{ rwc := 1, call_id := 3, field := CallContextField.RwCounterEndOfReversion, value := 0 }]

/-- Witness for C5 at a concrete input: with an empty call map the pass
over `c5ops` aborts. -/
theorem set_value_ops_missing_call_id_aborts_witness :
    (∃ op ∈ c5ops, op.field = CallContextField.RwCounterEndOfReversion ∧
      lookup_call_map [] op.call_id = none) ∧
    ∃ e, set_value_ops_call_context_rwc_eor [] [] c5ops = .error e :=
  ⟨⟨{ rwc := 1, call_id := 3, field := CallContextField.RwCounterEndOfReversion, value := 0 },
      List.mem_cons_self _ _, rfl, rfl⟩,
    (set_value_ops_missing_call_id_aborts [] [] c5ops).1
      ⟨{ rwc := 1, call_id := 3, field := CallContextField.RwCounterEndOfReversion, value := 0 },
        List.mem_cons_self _ _, rfl, rfl⟩⟩

/-- Counterexample to claim C3: a block with zero transactions and
`max_rws = 1000` does finalize, but the two `Start` operations it produces
have counters `1` and `999`, not `1` and `1000`: the always-performed
withdraw-trie-root storage read takes counter 1, so `total_rws = 1` at the
check and the second pad sits at `max_rws - total_rws = 999`. -/
theorem empty_block_start_pads_not_at_1000 :
    ¬ ∃ b2, handle_block trivialExt { core := initCore 1000 1, logs := [] } [] [] = .ok b2 ∧
      b2.core.container.start.map StartOp.rwc = [1, 1000] := by
  rintro ⟨b2, h1, h2⟩
  have h3 : (handle_block trivialExt { core := initCore 1000 1, logs := [] } [] []).map
      (fun b => b.core.container.start.map StartOp.rwc) = .ok [1, 1000] := by
    rw [h1]
    simp [Except.map, h2]
  have h4 : (Except.ok [1, 999] : Except BuilderError (List Nat)) = .ok [1, 1000] := by
    rw [← h3]
    rfl
  injection h4 with h5
  exact absurd h5 (by decide)

/-- Amended claim C3: a block with zero transactions and `max_rws = 1000`
still finalizes successfully, with exactly two `Start`-domain operations,
whose counters are `1` and `999` (the withdraw-trie-root read performed by
`set_end_block` consumes counter 1, so `total_rws = 1` and the second pad
lands at `max_rws - total_rws = 999`). -/
theorem empty_block_finalize_start_pads :
    (handle_block trivialExt { core := initCore 1000 1, logs := [] } [] []).map
      (fun b => b.core.container.start.map StartOp.rwc) = .ok [1, 999] := rfl

/-- The transaction loop of `handle_block_inner` on a builder whose batch
already holds `max_txs` transactions: every transaction is skipped with one
warning and the core state (counter, operations, transactions) is left
untouched. -/
theorem txLoop_skips_when_full (ext : Externals) (traces : List GethTrace) (total : Nat)
    (c : Bool) :
    ∀ (etxs : List EthTx) (b : BuilderState) (idx : Nat),
      b.core.max_txs ≤ b.core.txs.length →
      txLoop ext traces total c b idx etxs =
        .ok { core := b.core, logs := b.logs ++ List.replicate etxs.length LogMsg.skipTxWarn } := by
  intro etxs
  induction etxs with
  | nil =>
    intro b idx hfull
    unfold txLoop
    simp
  | cons etx rest ih =>
    intro b idx hfull
    unfold txLoop
    rw [if_pos hfull]
    rw [ih { core := b.core, logs := b.logs ++ [LogMsg.skipTxWarn] } (idx + 1) hfull]
    simp [List.replicate_succ]

/-- Claim C7: when the batch already holds `max_txs` transactions, every
further transaction fed to `handle_block_inner` is skipped with a warning
rather than an error: with finalize disabled the loop returns `Ok` with the
core state unchanged (no counter advance, no operation or transaction
added) and one warning per skipped transaction, and `handle_block` reduces
to the finalize phase on that unchanged core state. -/
theorem handle_block_skips_txs_beyond_cap (ext : Externals) (b : BuilderState)
    (etxs : List EthTx) (traces : List GethTrace) (c : Bool)
    (hfull : b.core.max_txs ≤ b.core.txs.length) :
    handle_block_inner ext b etxs traces false c =
      .ok { core := b.core, logs := b.logs ++ List.replicate etxs.length LogMsg.skipTxWarn } ∧
    handle_block ext b etxs traces =
      finalizeBlock { core := b.core, logs := b.logs ++ List.replicate etxs.length LogMsg.skipTxWarn } := by
  constructor
  · unfold handle_block_inner
    rw [txLoop_skips_when_full ext traces etxs.length c etxs b 0 hfull]
    simp
  · unfold handle_block handle_block_inner
    rw [txLoop_skips_when_full ext traces etxs.length true etxs b 0 hfull]
    simp

/-- Witness for C7 at a concrete input: `max_txs = 0`, one incoming
transaction; it is skipped with a warning, the loop returns `Ok` on the
unchanged core state, and `handle_block` reduces to the finalize phase. -/
theorem handle_block_skips_txs_beyond_cap_witness :
    (initCore 1000 0).max_txs ≤ (initCore 1000 0).txs.length ∧
    handle_block_inner trivialExt { core := initCore 1000 0, logs := [] }
        [{ transaction_index := some 0, data := 0 }] [] false true =
      .ok { core := initCore 1000 0, logs := [] ++ List.replicate 1 LogMsg.skipTxWarn } ∧
    handle_block trivialExt { core := initCore 1000 0, logs := [] }
        [{ transaction_index := some 0, data := 0 }] [] =
      finalizeBlock { core := initCore 1000 0, logs := [] ++ List.replicate 1 LogMsg.skipTxWarn } :=
  ⟨by decide,
    (handle_block_skips_txs_beyond_cap trivialExt { core := initCore 1000 0, logs := [] }
      [{ transaction_index := some 0, data := 0 }] [] true (by decide)).1,
    (handle_block_skips_txs_beyond_cap trivialExt { core := initCore 1000 0, logs := [] }
      [{ transaction_index := some 0, data := 0 }] [] true (by decide)).2⟩

/-- Claim C8: the L1-fee sanity check in `handle_tx` never aborts the
build and changes nothing but the log: `handle_tx` agrees with the variant
that omits the check on the returned core state and on every error (so the
replay proceeds identically whether or not the recomputed fee
`tx.l1_fee()` and the declared `geth_trace.l1_fee` agree), and whenever
the two values disagree and `handle_tx` succeeds, the mismatch has been
logged. -/
theorem handle_tx_l1_fee_mismatch_nonfatal (ext : Externals) (b : BuilderState)
    (etx : EthTx) (trace : GethTrace) (is_last : Bool) :
    Except.map BuilderState.core (handle_tx ext b etx trace is_last) =
      Except.map BuilderState.core (handle_tx_no_fee_check ext b etx trace is_last) ∧
    ∀ core tx b2, new_tx ext b.core etx (!trace.failed) = .ok (core, tx) →
      tx.l1_fee ≠ trace.l1_fee →
      handle_tx ext b etx trace is_last = .ok b2 →
      LogMsg.l1FeeMismatch ∈ b2.logs := by
  constructor
  · unfold handle_tx handle_tx_no_fee_check
    cases hnew : new_tx ext b.core etx (!trace.failed) with
    | error e => rfl
    | ok p =>
      obtain ⟨core, tx⟩ := p
      cases hrun : ext.runTx core tx trace is_last with
      | error e => simp [hrun]
      | ok q => simp [hrun, Except.map]
  · intro core tx b2 hnew hne hres
    unfold handle_tx at hres
    rw [hnew] at hres
    simp only [if_pos hne] at hres
    cases hrun : ext.runTx core tx trace is_last with
    | error e => rw [hrun] at hres; exact Except.noConfusion hres
    | ok q =>
      rw [hrun] at hres
      injection hres with h2
      rw [← h2]
      simp

/-- Concrete instances for the C8 witness. -/
def c8b : BuilderState := { core := initCore 1000 1, logs := [] }

/-- The eth transaction of the C8 witness. -/
def c8etx : EthTx := { transaction_index := some 0, data := 0 }

/-- The trace of the C8 witness, declaring an L1 fee of 5 while the
(trivially modelled) recomputation yields 0. -/
def c8trace : GethTrace := { failed := false, l1_fee := 5, steps_data := 0 }

/-- The transaction `trivialExt.txNew` builds for the C8 witness. -/
def c8tx : Transaction :=
  { call_id := 1, eth := c8etx, calls := [], l1_fee := 0 }

/-- The core state after the C8 witness `new_tx`. -/
def c8core : CoreState := { initCore 1000 1 with call_map := [(1, 0, 0)] }

/-- The builder state the C8 witness `handle_tx` returns. -/
def c8b2 : BuilderState :=
  { core := { c8core with txs := [c8tx] }, logs := [LogMsg.l1FeeMismatch] }

/-- Witness for C8 at a concrete input: the fee mismatch (0 vs 5) is
logged and the run still succeeds, agreeing with the check-free variant on
the core state. -/
theorem handle_tx_l1_fee_mismatch_nonfatal_witness :
    Except.map BuilderState.core (handle_tx trivialExt c8b c8etx c8trace true) =
      Except.map BuilderState.core (handle_tx_no_fee_check trivialExt c8b c8etx c8trace true) ∧
    new_tx trivialExt c8b.core c8etx (!c8trace.failed) = .ok (c8core, c8tx) ∧
    c8tx.l1_fee ≠ c8trace.l1_fee ∧
    handle_tx trivialExt c8b c8etx c8trace true = .ok c8b2 ∧
    LogMsg.l1FeeMismatch ∈ c8b2.logs :=
  ⟨(handle_tx_l1_fee_mismatch_nonfatal trivialExt c8b c8etx c8trace true).1,
    rfl, by decide, rfl,
    (handle_tx_l1_fee_mismatch_nonfatal trivialExt c8b c8etx c8trace true).2
      c8core c8tx c8b2 rfl (by decide) rfl⟩

/-- The transaction loop is insensitive to the declared
`transaction_index` of the incoming transactions: it overwrites it with the
batch position before any use. -/
theorem txLoop_map_tx_index (ext : Externals) (traces : List GethTrace) (total : Nat)
    (c : Bool) (f : EthTx → Option Nat) :
    ∀ (etxs : List EthTx) (b : BuilderState) (idx : Nat),
      txLoop ext traces total c b idx
          (etxs.map fun t => { t with transaction_index := f t }) =
        txLoop ext traces total c b idx etxs := by
  intro etxs
  induction etxs with
  | nil => intro b idx; rfl
  | cons etx rest ih =>
    intro b idx
    unfold txLoop
    simp only [List.map_cons]
    by_cases hfull : b.core.max_txs ≤ b.core.txs.length
    · rw [if_pos hfull, if_pos hfull]
      exact ih { core := b.core, logs := b.logs ++ [LogMsg.skipTxWarn] } (idx + 1)
    · rw [if_neg hfull, if_neg hfull]
      cases htr : traces.get? idx with
      | none => rfl
      | some trace =>
        show (match handle_tx ext b { etx with transaction_index := some b.core.txs.length }
            trace (c && (idx + 1 == total)) with
          | Except.error e => (Except.error e : Except BuilderError BuilderState)
          | Except.ok b2 => txLoop ext traces total c b2 (idx + 1)
              (rest.map fun t => { t with transaction_index := f t })) =
          match handle_tx ext b { etx with transaction_index := some b.core.txs.length }
            trace (c && (idx + 1 == total)) with
          | Except.error e => (Except.error e : Except BuilderError BuilderState)
          | Except.ok b2 => txLoop ext traces total c b2 (idx + 1) rest
        cases handle_tx ext b { etx with transaction_index := some b.core.txs.length }
            trace (c && (idx + 1 == total)) with
        | error e => rfl
        | ok b2 => exact ih b2 (idx + 1)

/-- Claim C9: for every transaction accepted by `handle_block_inner` the
declared `transaction_index` is ignored — rewriting it arbitrarily on
every incoming transaction leaves the whole run unchanged, because the
loop overwrites it with the batch position `block.txs.len()` before
replay — and on a transaction whose `transaction_index` is present (as it
always is on this path), `new_tx` never takes its incomplete-input error
branch: its result is wholly determined by the external
`Transaction::new`, with the call map extended by
`call_id -> (transaction_index, 0)` at `call_id = rwc`. -/
theorem handle_block_inner_ignores_declared_tx_index (ext : Externals) :
    (∀ (b : BuilderState) (etxs : List EthTx) (traces : List GethTrace) (r c : Bool)
        (f : EthTx → Option Nat),
      handle_block_inner ext b (etxs.map fun t => { t with transaction_index := f t })
          traces r c =
        handle_block_inner ext b etxs traces r c) ∧
    ∀ (s : CoreState) (etx : EthTx) (k : Nat) (su : Bool),
      new_tx ext s { etx with transaction_index := some k } su =
        Except.map (fun t => ({ s with call_map := (s.rwc, k, 0) :: s.call_map }, t))
          (ext.txNew s.rwc { etx with transaction_index := some k } su) := by
  constructor
  · intro b etxs traces r c f
    unfold handle_block_inner
    rw [List.length_map, txLoop_map_tx_index ext traces etxs.length c f etxs b 0]
  · intro s etx k su
    unfold new_tx
    cases h : ext.txNew s.rwc { etx with transaction_index := some k } su with
    | error e => simp only [h]; rfl
    | ok t => simp only [h]; rfl

/-- Unrolling of the multi-block loop: with the index invariant
`n = idx + bs.length + 1`, all blocks before the last are processed with
`is_last = false` and the last one with `is_last = true`, threading one
builder state. -/
theorem gen_multi_go_append (ext : Externals) :
    ∀ (bs : List EthBlockT) (b : BuilderState) (idx : Nat) (blk : EthBlockT),
      gen_multi_go ext b idx (idx + bs.length + 1) (bs ++ [blk]) =
        match process_blocks_not_last ext b bs with
        | .error e => .error e
        | .ok b2 => process_block_last ext b2 blk := by
  intro bs
  induction bs with
  | nil =>
    intro b idx blk
    have hd : (decide (idx = idx + List.length ([] : List EthBlockT) + 1 - 1)) = true := by
      simp
    simp only [List.nil_append, gen_multi_go, hd]
    show _ = process_block_last ext b blk
    unfold process_block_last
    cases handle_block_inner ext (withHeader b blk.number) blk.txs blk.traces true true with
    | error e => rfl
    | ok b2 => rfl
  | cons blk0 bs ih =>
    intro b idx blk
    have hd : (decide (idx = idx + List.length (blk0 :: bs) + 1 - 1)) = false := by
      simp only [decide_eq_false_iff_not, List.length_cons]
      omega
    simp only [List.cons_append, gen_multi_go, hd]
    unfold process_blocks_not_last process_block_not_last
    cases handle_block_inner ext (withHeader b blk0.number) blk0.txs blk0.traces false false with
    | error e => rfl
    | ok b2 =>
      have hn : idx + List.length (blk0 :: bs) + 1 = idx + 1 + bs.length + 1 := by
        simp only [List.length_cons]
        omega
      rw [hn]
      exact ih b2 (idx + 1) blk

/-- Claim C6: a batch replayed through one builder shares one counter
space and one operation container — a single builder state threads through
every block — and only the final block triggers reversion-marker
resolution and `Start` padding: `handle_block_inner` with
`handle_rwc_reversion = false` is exactly the transaction loop (it applies
neither `set_value_ops_call_context_rwc_eor` nor `set_end_block`), while
with the flag set it is the loop followed by the finalize phase; and
`gen_inputs_from_state_multi` on a batch `bs ++ [blk]` processes every
block of `bs` with both flags false and only `blk` with both flags true,
each block starting from the state the previous one produced. -/
theorem multi_block_is_last_threading (ext : Externals) (b : BuilderState) :
    (∀ etxs traces c, handle_block_inner ext b etxs traces false c =
        txLoop ext traces etxs.length c b 0 etxs) ∧
    (∀ etxs traces c, handle_block_inner ext b etxs traces true c =
        match txLoop ext traces etxs.length c b 0 etxs with
        | .error e => .error e
        | .ok b2 => finalizeBlock b2) ∧
    ∀ (bs : List EthBlockT) (blk : EthBlockT),
      gen_inputs_from_state_multi ext b (bs ++ [blk]) =
        match process_blocks_not_last ext b bs with
        | .error e => .error e
        | .ok b2 => process_block_last ext b2 blk := by
  refine ⟨?_, ?_, ?_⟩
  · intro etxs traces c
    unfold handle_block_inner
    cases txLoop ext traces etxs.length c b 0 etxs with
    | error e => rfl
    | ok b2 => rfl
  · intro etxs traces c
    unfold handle_block_inner
    cases txLoop ext traces etxs.length c b 0 etxs with
    | error e => rfl
    | ok b2 => rfl
  · intro bs blk
    unfold gen_inputs_from_state_multi
    have hlen : (bs ++ [blk]).length = 0 + bs.length + 1 := by simp
    rw [hlen]
    exact gen_multi_go_append ext bs b 0 blk

/-- Arithmetic helper: decomposition of a remainder modulo `2 * k` into the
lowest bit and the remainder of the shifted value. -/
theorem two_mul_mod_decompose (t k : Nat) (hk : 0 < k) :
    t % (2 * k) = t % 2 + 2 * (t / 2 % k) := by
  have h1 : t % 2 + 2 * (t / 2 % k) < 2 * k := by
    have h2 : t % 2 < 2 := Nat.mod_lt _ (by omega)
    have h3 : t / 2 % k < k := Nat.mod_lt _ hk
    omega
  have h4 : t = 2 * k * (t / 2 / k) + (t % 2 + 2 * (t / 2 % k)) := by
    have e1 := Nat.div_add_mod t 2
    have e2 := Nat.div_add_mod (t / 2) k
    calc t = 2 * (t / 2) + t % 2 := e1.symm
      _ = 2 * (k * (t / 2 / k) + t / 2 % k) + t % 2 := by rw [e2]
      _ = 2 * k * (t / 2 / k) + (t % 2 + 2 * (t / 2 % k)) := by ring
  calc t % (2 * k)
      = (2 * k * (t / 2 / k) + (t % 2 + 2 * (t / 2 % k))) % (2 * k) := by rw [← h4]
    _ = ((t % 2 + 2 * (t / 2 % k)) + 2 * k * (t / 2 / k)) % (2 * k) := by rw [Nat.add_comm]
    _ = (t % 2 + 2 * (t / 2 % k)) % (2 * k) := Nat.add_mul_mod_self_left _ _ _
    _ = t % 2 + 2 * (t / 2 % k) := Nat.mod_eq_of_lt h1

/-- The bit extraction loop returns one entry per iteration. -/
theorem byte_to_bits_le_aux_length : ∀ n t, (byte_to_bits_le_aux n t).length = n := by
  intro n
  induction n with
  | zero => intro t; rfl
  | succ m ih => intro t; simp [byte_to_bits_le_aux, ih]

/-- Every entry produced by the bit extraction loop is 0 or 1. -/
theorem byte_to_bits_le_aux_bits : ∀ n t, ∀ x ∈ byte_to_bits_le_aux n t, x = 0 ∨ x = 1 := by
  intro n
  induction n with
  | zero => intro t x hx; exact absurd hx (List.not_mem_nil x)
  | succ m ih =>
    intro t x hx
    rcases List.mem_cons.mp hx with h | h
    · omega
    · exact ih (t / 2) x h

/-- Little-endian reconstruction of the bit extraction loop: the weighted
sum of the first `n` extracted bits is the input modulo `2 ^ n`. -/
theorem byte_to_bits_le_aux_recon :
    ∀ n t, (∑ i in Finset.range n, (byte_to_bits_le_aux n t).getD i 0 * 2 ^ i) = t % 2 ^ n := by
  intro n
  induction n with
  | zero => intro t; simp [Nat.mod_one]
  | succ m ih =>
    intro t
    rw [Finset.sum_range_succ']
    have haux : byte_to_bits_le_aux (m + 1) t = t % 2 :: byte_to_bits_le_aux m (t / 2) := rfl
    rw [haux]
    simp only [List.getD_cons_succ, List.getD_cons_zero, pow_zero, Nat.mul_one]
    have hsum : ∑ i in Finset.range m,
        (byte_to_bits_le_aux m (t / 2)).getD i 0 * 2 ^ (i + 1) =
        2 * ∑ i in Finset.range m, (byte_to_bits_le_aux m (t / 2)).getD i 0 * 2 ^ i := by
      rw [Finset.mul_sum]
      apply Finset.sum_congr rfl
      intro i _
      ring
    rw [hsum, ih (t / 2)]
    have hpow : (2 : Nat) ^ (m + 1) = 2 * 2 ^ m := by ring
    rw [hpow, two_mul_mod_decompose t (2 ^ m) (Nat.pos_pow_of_pos m (by omega))]
    omega

/-- Claim C10: for every byte `b`, `byte_to_bits_le b` returns exactly 8
values, each equal to 0 or 1, and the little-endian reconstruction
`sum over i < 8 of res[i] * 2^i` equals `b`. -/
theorem byte_to_bits_le_spec (b : Nat) (hb : b < 256) :
    (byte_to_bits_le b).length = 8 ∧
    (∀ x ∈ byte_to_bits_le b, x = 0 ∨ x = 1) ∧
    ∑ i in Finset.range 8, (byte_to_bits_le b).getD i 0 * 2 ^ i = b := by
  refine ⟨byte_to_bits_le_aux_length 8 b,
    fun x hx => byte_to_bits_le_aux_bits 8 b x hx, ?_⟩
  unfold byte_to_bits_le
  rw [byte_to_bits_le_aux_recon 8 b]
  have h256 : (2 : Nat) ^ 8 = 256 := by norm_num
  rw [h256]
  exact Nat.mod_eq_of_lt hb

/-- Witness for C10 at the concrete byte 165 = 0b10100101. -/
theorem byte_to_bits_le_spec_witness :
    165 < 256 ∧
    ((byte_to_bits_le 165).length = 8 ∧
      (∀ x ∈ byte_to_bits_le 165, x = 0 ∨ x = 1) ∧
      ∑ i in Finset.range 8, (byte_to_bits_le 165).getD i 0 * 2 ^ i = 165) :=
  ⟨by decide, byte_to_bits_le_spec 165 (by decide)⟩
